import Mathlib

/-!
Shallow embedding of the time-capsule scheduled-email application
(`API/API.py`): the `Capsule` database model, the scheduled job
`send_scheduled_emails`, the mail helper `send_email`, and the
`create_capsule`, `delete_capsule` and `download_attachment` endpoints.

External effects (filesystem, SMTP relay, `os.path.abspath`) are modelled
by an explicit environment `Env` of oracle functions; the SQLite table is
a `List Capsule`; instants are integers (UTC).
-/

namespace TimeCapsule

/-- Values of the `status` column: `'pending'`, `'sent'`, `'failed'`. -/
inductive Status
  | pending
  | sent
  | failed
  deriving DecidableEq, Repr

/-- One row of the `capsule` table (`class Capsule(db.Model)`). -/
structure Capsule where
  id : Nat
  recipient_email : String
  subject : String
  body : String
  send_datetime_utc : Int
  attachment_path : Option String
  attachment_filename : Option String
  status : Status
  error_message : Option String
  created_at : Int
  deriving DecidableEq, Repr

/-- State of one filesystem path: absent, present but unreadable
(opening or reading it raises the given message), or readable content. -/
inductive FsEntry
  | absent
  | readError (msg : String)
  | content (bytes : List Nat)
  deriving DecidableEq, Repr

/-- The outbound MIME message built by `send_email`: sender, recipient,
subject, plain-text body, and the optional attached part
(display filename from `capsule.attachment_filename`, plus file bytes). -/
structure EmailMsg where
  from_addr : String
  to_addr : String
  subject : String
  body : String
  attachment : Option (Option String × List Nat)
  deriving DecidableEq, Repr

/-- One committed state write of the scheduler loop: the row id and the
`status` / `error_message` values written by `db.session.commit()`. -/
structure StateWrite where
  id : Nat
  status : Status
  error_message : Option String
  deriving DecidableEq, Repr

/-- Observable steps of `delete_capsule`: the attachment-file removal
(successful `os.remove`, or `os.remove` raising a caught exception) and
the database row deletion. -/
inductive DelEvent
  | fileRemoved (p : String)
  | fileRemoveFailed (p : String) (msg : String)
  | recordDeleted (id : Nat)
  deriving DecidableEq, Repr

/-- Result of `delete_capsule`: HTTP status code, ordered trace of the
side effects performed, and the table afterwards. -/
structure DelResult where
  status_code : Nat
  events : List DelEvent
  store : List Capsule
  deriving DecidableEq, Repr

/-- Result of `download_attachment`: a 404, a 403, or the file at the
given absolute path served with the given download name. -/
inductive DlResult
  | notFound (detail : String)
  | forbidden (detail : String)
  | served (path : String) (download_name : Option String)
  deriving DecidableEq, Repr

/-- The validated form fields handed to `create_capsule` by the HTTP
layer (after parsing and the timezone conversion to UTC). -/
structure CreateParams where
  recipient_email : String
  subject : String
  body : String
  send_datetime_utc : Int
  attachment_path : Option String
  attachment_filename : Option String
  deriving DecidableEq, Repr

/-- The process environment: mail configuration (`app.config`), the
filesystem, the SMTP relay, `os.path.abspath`, the upload folder, the
outcome of `os.remove` per path, and the instant at which the module was
imported (when the `Capsule` class body, including the `created_at`
column default expression `datetime.now(timezone.utc)`, was evaluated). -/
structure Env where
  mail_username : Option String
  mail_password : Option String
  mail_default_sender : String
  fs : String → FsEntry
  smtp : EmailMsg → Except String Unit
  abspath : String → String
  upload_folder : String
  remove_err : String → Option String
  module_load_time : Int

/-- Python truthiness of an optional string (`None` and `''` are falsy). -/
def py_truthy : Option String → Bool
  | none => false
  | some s => decide (s ≠ "")

/-- Python `s.startswith(pre)`. -/
def py_startswith (s pre : String) : Bool :=
  pre.data.isPrefixOf s.data

/-- `os.path.exists(p)` against the modelled filesystem. -/
def os_path_exists (env : Env) (p : String) : Bool :=
  match env.fs p with
  | FsEntry.absent => false
  | FsEntry.readError _ => true
  | FsEntry.content _ => true

/-- The attachment-handling block of `send_email`: the message is built
with body attached; then `if capsule.attachment_path and
os.path.exists(capsule.attachment_path):` the file is read and attached
(an exception while reading is re-raised); otherwise the block is
skipped and the message carries no attachment. -/
def buildMsg (env : Env) (c : Capsule) : Except String EmailMsg :=
  let base : EmailMsg :=
    { from_addr := env.mail_default_sender
      to_addr := c.recipient_email
      subject := c.subject
      body := c.body
      attachment := none }
  match c.attachment_path with
  | none => Except.ok base
  | some p =>
    if p = "" then Except.ok base
    else
      match env.fs p with
      | FsEntry.absent => Except.ok base
      | FsEntry.readError e => Except.error e
      | FsEntry.content bytes =>
          Except.ok { base with attachment := some (c.attachment_filename, bytes) }

/-- `send_email(capsule)`: raises `EnvironmentError` when credentials are
missing, builds the message (see `buildMsg`), then performs the SMTP
session; any SMTP exception is re-raised. On success it returns the
message that was transmitted. Exceptions are modelled as
`Except.error` carrying `str(e)`. -/
def send_email (env : Env) (c : Capsule) : Except String EmailMsg :=
  if (py_truthy env.mail_username && py_truthy env.mail_password) = false then
    Except.error "Email credentials not configured. Cannot send email."
  else
    match buildMsg env c with
    | Except.error e => Except.error e
    | Except.ok msg =>
      match env.smtp msg with
      | Except.ok _ => Except.ok msg
      | Except.error e => Except.error e

/-- The per-capsule body of the scheduler loop: on success the row is
committed with `status='sent'`, `error_message=None`; on any exception
with `status='failed'`, `error_message=str(e)`. -/
def processCapsule (env : Env) (c : Capsule) : Capsule :=
  match send_email env c with
  | Except.ok _ => { c with status := Status.sent, error_message := none }
  | Except.error e => { c with status := Status.failed, error_message := some e }

/-- The filter of the scheduler query: `(Capsule.status == 'pending') |
(Capsule.status == 'failed')` and `Capsule.send_datetime_utc <= now_utc`. -/
def isDue (c : Capsule) (now : Int) : Bool :=
  decide ((c.status = Status.pending ∨ c.status = Status.failed) ∧
    c.send_datetime_utc ≤ now)

/-- The scheduler query (`Capsule.query.filter(...).all()`), the sole
read path of the loop. -/
def find_due (store : List Capsule) (now : Int) : List Capsule :=
  store.filter (fun c => isDue c now)

/-- Committing one mutated ORM row: the table row with the same primary
key takes the new values. -/
def updateById (store : List Capsule) (c' : Capsule) : List Capsule :=
  store.map (fun c => if c.id = c'.id then c' else c)

/-- One tick of `send_scheduled_emails`, acting on the table: capture
`now`, query the due capsules, and for each one in order attempt
`send_email` and commit the resulting status. -/
def send_scheduled_emails (env : Env) (store : List Capsule) (now : Int) :
    List Capsule :=
  (find_due store now).foldl
    (fun st c => updateById st (processCapsule env c)) store

/-- The state writes committed during one tick: the loop body commits
exactly one `status` / `error_message` write per processed capsule. -/
def tickWrites (env : Env) (store : List Capsule) (now : Int) :
    List StateWrite :=
  (find_due store now).map (fun c =>
    { id := (processCapsule env c).id
      status := (processCapsule env c).status
      error_message := (processCapsule env c).error_message })

/-- The effect of one tick on a single row: processed if due, untouched
otherwise. -/
def step (env : Env) (now : Int) (c : Capsule) : Capsule :=
  if isDue c now then processCapsule env c else c

/-- `Capsule.query.get(capsule_id)`: primary-key lookup. -/
def get_capsule (store : List Capsule) (cid : Nat) : Option Capsule :=
  store.find? (fun c => decide (c.id = cid))

/-- The attachment-release block of `delete_capsule`: `if
capsule.attachment_path and os.path.exists(...)` try `os.remove`,
logging (not propagating) any exception. -/
def releaseEvents (env : Env) (c : Capsule) : List DelEvent :=
  match c.attachment_path with
  | none => []
  | some p =>
    if p = "" then []
    else if os_path_exists env p then
      match env.remove_err p with
      | none => [DelEvent.fileRemoved p]
      | some m => [DelEvent.fileRemoveFailed p m]
    else []

/-- `delete_capsule(capsule_id)`: 404 when the id is unknown; otherwise
best-effort removal of the attachment file, then deletion of the row. -/
def delete_capsule (env : Env) (store : List Capsule) (cid : Nat) :
    DelResult :=
  match get_capsule store cid with
  | none => { status_code := 404, events := [], store := store }
  | some c =>
    { status_code := 200
      events := releaseEvents env c ++ [DelEvent.recordDeleted c.id]
      store := store.filter (fun x => decide (x.id ≠ cid)) }

/-- The `Capsule(...)` construction committed by `create_capsule`:
`status='pending'`, `error_message=None`, and `created_at` filled from
the column default — a value computed once when the class body ran at
module import, not per record. -/
def new_capsule (env : Env) (p : CreateParams) (newId : Nat) : Capsule :=
  { id := newId
    recipient_email := p.recipient_email
    subject := p.subject
    body := p.body
    send_datetime_utc := p.send_datetime_utc
    attachment_path := p.attachment_path
    attachment_filename := p.attachment_filename
    status := Status.pending
    error_message := none
    created_at := env.module_load_time }

/-- `create_capsule`: append the newly constructed row to the table. -/
def create_capsule (env : Env) (store : List Capsule) (p : CreateParams)
    (newId : Nat) : List Capsule × Capsule :=
  (store ++ [new_capsule env p newId], new_capsule env p newId)

/-- `download_attachment(capsule_id)`: 404 for unknown id, missing
reference or missing file; 403 when the absolute attachment path does
not start with the absolute upload folder; otherwise the file is served. -/
def download_attachment (env : Env) (store : List Capsule) (cid : Nat) :
    DlResult :=
  match get_capsule store cid with
  | none => DlResult.notFound "Capsule not found"
  | some c =>
    match c.attachment_path with
    | none => DlResult.notFound "Attachment not found for this capsule"
    | some p =>
      if p = "" then DlResult.notFound "Attachment not found for this capsule"
      else if os_path_exists env p = false then
        DlResult.notFound "Attachment file not found"
      else if py_startswith (env.abspath p) (env.abspath env.upload_folder)
          = false then
        DlResult.forbidden "Cannot access this file"
      else
        DlResult.served (env.abspath p) c.attachment_filename

/-! Spec-level predicates, written from the specification's words, for
stating the claims against the embedded code. -/

/-- The table has pairwise distinct primary keys (guaranteed by the
database's `primary_key=True`). -/
abbrev idsNodup (store : List Capsule) : Prop :=
  (store.map Capsule.id).Nodup

/-- Spec invariant: `last_error` non-null iff `state = failed`. -/
abbrev consistent (c : Capsule) : Prop :=
  c.error_message ≠ none ↔ c.status = Status.failed

/-- Spec notion of a path lying inside a folder: it is the folder itself
or has `folder ++ "/"` as a prefix. -/
abbrev path_inside (folder p : String) : Prop :=
  p = folder ∨ py_startswith p (folder ++ "/") = true

/-- An attachment-content-release event of `delete_capsule`. -/
def isReleaseEvent : DelEvent → Bool
  | DelEvent.fileRemoved _ => true
  | DelEvent.fileRemoveFailed _ _ => true
  | DelEvent.recordDeleted _ => false

/-- Spec ordering for deletion: the record deletion comes first, before
every content-release event (no release event precedes it). -/
abbrev recordDeletionFirst (evs : List DelEvent) : Prop :=
  evs.takeWhile isReleaseEvent = []

/-! Concrete inputs used by witnesses and counterexamples. -/

/-- A fully configured environment: credentials present, every SMTP
session succeeds, the filesystem holds no files, `os.path.abspath` is
the identity (all stored paths are already absolute and normalized). -/
def env0 : Env :=
  { mail_username := some "user@example.com"
    mail_password := some "secret"
    mail_default_sender := "user@example.com"
    fs := fun _ => FsEntry.absent
    smtp := fun _ => Except.ok ()
    abspath := fun s => s
    upload_folder := "/app/uploads"
    remove_err := fun _ => none
    module_load_time := 0 }

/-- Like `env0` but every SMTP session fails. -/
def envFail : Env :=
  { env0 with smtp := fun _ => Except.error "SMTP connection refused" }

/-- A due pending capsule whose stored attachment path points at a file
that does not exist on the modelled filesystem. -/
def c1 : Capsule :=
  { id := 1
    recipient_email := "r@example.com"
    subject := "hello"
    body := "msg"
    send_datetime_utc := 0
    attachment_path := some "/app/uploads/missing.png"
    attachment_filename := some "photo.png"
    status := Status.pending
    error_message := none
    created_at := 0 }

/-- A due pending capsule without attachment. -/
def c3 : Capsule :=
  { c1 with id := 3, attachment_path := none, attachment_filename := none }

/-! Scheduler-loop lemmas: the sequential fold of per-row commits acts on
each row independently (normal form), and a repeated tick is a no-op. -/

lemma processCapsule_id (env : Env) (c : Capsule) :
    (processCapsule env c).id = c.id := by
  unfold processCapsule
  cases send_email env c <;> rfl

lemma step_id (env : Env) (now : Int) (c : Capsule) :
    (step env now c).id = c.id := by
  unfold step
  split
  · exact processCapsule_id env c
  · rfl

lemma isDue_iff (c : Capsule) (now : Int) :
    isDue c now = true ↔
      (c.status = Status.pending ∨ c.status = Status.failed) ∧
        c.send_datetime_utc ≤ now := by
  simp [isDue]

/-- One committed row replacement, seen as its action on a single row. -/
def applyUpd (env : Env) (x d : Capsule) : Capsule :=
  if x.id = (processCapsule env d).id then processCapsule env d else x

/-- The action on a single row of the whole sequence of commits. -/
def chainUpd (env : Env) (ds : List Capsule) (x : Capsule) : Capsule :=
  ds.foldl (applyUpd env) x

lemma foldl_updateById_eq_map (env : Env) (ds : List Capsule) :
    ∀ st : List Capsule,
      ds.foldl (fun st c => updateById st (processCapsule env c)) st =
        st.map (chainUpd env ds) := by
  induction ds with
  | nil =>
    intro st
    exact (List.map_id' st).symm
  | cons d ds ih =>
    intro st
    simp only [List.foldl_cons]
    rw [ih (updateById st (processCapsule env d))]
    unfold updateById
    rw [List.map_map]
    rfl

lemma chainUpd_of_ne (env : Env) (ds : List Capsule) (x : Capsule)
    (h : ∀ d ∈ ds, d.id ≠ x.id) : chainUpd env ds x = x := by
  induction ds with
  | nil => rfl
  | cons d ds ih =>
    have hd : ¬ x.id = (processCapsule env d).id := by
      rw [processCapsule_id]
      exact fun he => h d (List.mem_cons_self d ds) he.symm
    show chainUpd env ds (applyUpd env x d) = x
    rw [applyUpd, if_neg hd]
    exact ih (fun d' hd' => h d' (List.mem_cons_of_mem d hd'))

lemma chainUpd_eval (env : Env) (c : Capsule) :
    ∀ ds : List Capsule, ds.Nodup → (∀ d ∈ ds, d.id = c.id → d = c) →
      chainUpd env ds c = if c ∈ ds then processCapsule env c else c := by
  intro ds
  induction ds with
  | nil =>
    intro _ _
    simp [chainUpd]
  | cons d ds ih =>
    intro hnd hinj
    by_cases hid : d.id = c.id
    · have hd : d = c := hinj d (List.mem_cons_self d ds) hid
      subst hd
      have hnotmem : d ∉ ds := (List.nodup_cons.mp hnd).1
      show chainUpd env ds (applyUpd env d d) = _
      rw [applyUpd, if_pos (processCapsule_id env d).symm]
      rw [chainUpd_of_ne env ds (processCapsule env d)
        (by
          intro d' hd' he
          rw [processCapsule_id] at he
          exact hnotmem (hinj d' (List.mem_cons_of_mem d hd') he ▸ hd'))]
      rw [if_pos (List.mem_cons_self d ds)]
    · have hne : d ≠ c := fun he => hid (he ▸ rfl)
      show chainUpd env ds (applyUpd env c d) = _
      rw [applyUpd, if_neg (by rw [processCapsule_id]; exact fun he => hid he.symm)]
      rw [ih (List.nodup_cons.mp hnd).2
        (fun d' hd' => hinj d' (List.mem_cons_of_mem d hd'))]
      by_cases hmem : c ∈ ds
      · rw [if_pos hmem, if_pos (List.mem_cons_of_mem d hmem)]
      · rw [if_neg hmem, if_neg (by
          intro hm
          rcases List.mem_cons.mp hm with he | hm'
          · exact hne he.symm
          · exact hmem hm')]

/-- Normal form of one tick: with distinct primary keys, the sequential
loop of per-row commits updates every row independently. -/
lemma send_scheduled_emails_eq_map (env : Env) (store : List Capsule)
    (now : Int) (h : idsNodup store) :
    send_scheduled_emails env store now = store.map (step env now) := by
  unfold send_scheduled_emails
  rw [foldl_updateById_eq_map]
  apply List.map_congr_left
  intro c hc
  have hnd : (find_due store now).Nodup :=
    (List.Nodup.of_map Capsule.id h).filter _
  have hinj : ∀ d ∈ find_due store now, d.id = c.id → d = c := by
    intro d hd hid
    exact List.inj_on_of_nodup_map h (List.mem_of_mem_filter hd) hc hid
  rw [chainUpd_eval env c (find_due store now) hnd hinj]
  unfold step
  by_cases hdue : isDue c now = true
  · have hmem : c ∈ find_due store now := List.mem_filter.mpr ⟨hc, hdue⟩
    rw [if_pos hmem, if_pos hdue]
  · have hmem : ¬ c ∈ find_due store now :=
      fun hm => hdue (List.mem_filter.mp hm).2
    rw [if_neg hmem, if_neg hdue]

lemma ids_send_scheduled_emails (env : Env) (store : List Capsule)
    (now : Int) (h : idsNodup store) :
    (send_scheduled_emails env store now).map Capsule.id =
      store.map Capsule.id := by
  rw [send_scheduled_emails_eq_map env store now h, List.map_map]
  exact List.map_congr_left (fun c _ => step_id env now c)

lemma idsNodup_send_scheduled_emails (env : Env) (store : List Capsule)
    (now : Int) (h : idsNodup store) :
    idsNodup (send_scheduled_emails env store now) := by
  unfold idsNodup
  rw [ids_send_scheduled_emails env store now h]
  exact h

lemma send_email_state_irrel (env : Env) (c : Capsule) (s : Status)
    (m : Option String) :
    send_email env { c with status := s, error_message := m } =
      send_email env c := rfl

lemma step_idem (env : Env) (now : Int) (c : Capsule) :
    step env now (step env now c) = step env now c := by
  by_cases hdue : isDue c now = true
  · have hle : c.send_datetime_utc ≤ now := ((isDue_iff c now).mp hdue).2
    have h1 : step env now c = processCapsule env c := if_pos hdue
    rw [h1]
    cases hs : send_email env c with
    | ok m =>
      have h2 : processCapsule env c =
          { c with status := Status.sent, error_message := none } := by
        unfold processCapsule
        rw [hs]
      rw [h2]
      exact if_neg (by simp [isDue])
    | error e =>
      have h2 : processCapsule env c =
          { c with status := Status.failed, error_message := some e } := by
        unfold processCapsule
        rw [hs]
      rw [h2]
      have hdue' :
          isDue { c with status := Status.failed, error_message := some e }
            now = true := by
        simp [isDue, hle]
      have h3 :
          step env now
              { c with status := Status.failed, error_message := some e } =
            processCapsule env
              { c with status := Status.failed, error_message := some e } :=
        if_pos hdue'
      rw [h3]
      have h4 :
          processCapsule env
              { c with status := Status.failed, error_message := some e } =
            { c with status := Status.failed, error_message := some e } := by
        unfold processCapsule
        rw [send_email_state_irrel, hs]
      exact h4
  · have h0 : step env now c = c := if_neg hdue
    rw [h0]
    exact h0

/-- A repeated tick at the same instant over the unchanged table leaves
every row as it is. -/
lemma send_scheduled_emails_idem (env : Env) (store : List Capsule)
    (now : Int) (h : idsNodup store) :
    send_scheduled_emails env (send_scheduled_emails env store now) now =
      send_scheduled_emails env store now := by
  rw [send_scheduled_emails_eq_map env _ now
      (idsNodup_send_scheduled_emails env store now h),
    send_scheduled_emails_eq_map env store now h, List.map_map]
  exact List.map_congr_left (fun c _ => step_idem env now c)

/-! Claim theorems. -/

/-- C1: the claim says a due record whose attachment reference points to
missing content fails with a `TransportError` and no email is sent
without the promised attachment. The code instead skips the attachment
block (`os.path.exists` is false), transmits the email with no attached
part, and commits `status='sent'`, `error_message=None`. -/
theorem C1_missing_attachment_silently_sent :
    send_email env0 c1 =
      Except.ok
        { from_addr := "user@example.com"
          to_addr := "r@example.com"
          subject := "hello"
          body := "msg"
          attachment := none }
    ∧ send_scheduled_emails env0 [c1] 5 =
        [{ c1 with status := Status.sent, error_message := none }] := by
  exact ⟨rfl, rfl⟩

/-- C2: `find_due(now)` returns exactly the records with state in
{pending, failed} and `due_at ≤ now`; consequently no record with
`due_at > now` and no `sent` record is ever returned. -/
theorem C2_find_due_characterization (store : List Capsule) (now : Int)
    (c : Capsule) :
    c ∈ find_due store now ↔
      c ∈ store ∧ (c.status = Status.pending ∨ c.status = Status.failed) ∧
        c.send_datetime_utc ≤ now := by
  simp [find_due, isDue, List.mem_filter]

/-- C3: a due record whose transport attempt fails is committed as
`failed` with `last_error` verbatim the error detail; at any later
instant it is again in `find_due` over the updated table, and the next
tick processes it again. -/
theorem C3_transport_failure_persists_and_retries (env : Env)
    (store : List Capsule) (now now' : Int) (h : idsNodup store)
    (c : Capsule) (hc : c ∈ store) (hdue : isDue c now = true)
    (e : String) (hsend : send_email env c = Except.error e)
    (hnow : now ≤ now') :
    { c with status := Status.failed, error_message := some e }
        ∈ send_scheduled_emails env store now
    ∧ { id := c.id, status := Status.failed, error_message := some e }
        ∈ tickWrites env store now
    ∧ { c with status := Status.failed, error_message := some e }
        ∈ find_due (send_scheduled_emails env store now) now'
    ∧ processCapsule env
          { c with status := Status.failed, error_message := some e }
        ∈ send_scheduled_emails env (send_scheduled_emails env store now)
            now' := by
  have hle : c.send_datetime_utc ≤ now := ((isDue_iff c now).mp hdue).2
  have hproc : processCapsule env c =
      { c with status := Status.failed, error_message := some e } := by
    unfold processCapsule
    rw [hsend]
  have hmem1 : { c with status := Status.failed, error_message := some e }
      ∈ send_scheduled_emails env store now := by
    rw [send_scheduled_emails_eq_map env store now h]
    exact List.mem_map.mpr ⟨c, hc, (if_pos hdue).trans hproc⟩
  have hduemem : c ∈ find_due store now := List.mem_filter.mpr ⟨hc, hdue⟩
  have hdue' :
      isDue { c with status := Status.failed, error_message := some e }
        now' = true := by
    exact (isDue_iff _ now').mpr ⟨Or.inr rfl, le_trans hle hnow⟩
  refine ⟨hmem1, ?_, List.mem_filter.mpr ⟨hmem1, hdue'⟩, ?_⟩
  · exact List.mem_map.mpr ⟨c, hduemem, by rw [hproc]⟩
  · rw [send_scheduled_emails_eq_map env _ now'
      (idsNodup_send_scheduled_emails env store now h)]
    exact List.mem_map.mpr
      ⟨{ c with status := Status.failed, error_message := some e },
        hmem1, if_pos hdue'⟩

/-- C3 witness: a concrete due pending capsule against a failing relay. -/
theorem C3_witness :
    ({ c3 with
        status := Status.failed
        error_message := some "SMTP connection refused" }
      ∈ send_scheduled_emails envFail [c3] 5)
    ∧ ({ id := 3
         status := Status.failed
         error_message := some "SMTP connection refused" }
        ∈ tickWrites envFail [c3] 5)
    ∧ ({ c3 with
          status := Status.failed
          error_message := some "SMTP connection refused" }
        ∈ find_due (send_scheduled_emails envFail [c3] 5) 6)
    ∧ processCapsule envFail
          { c3 with
            status := Status.failed
            error_message := some "SMTP connection refused" }
        ∈ send_scheduled_emails envFail
            (send_scheduled_emails envFail [c3] 5) 6 :=
  C3_transport_failure_persists_and_retries envFail [c3] 5 6 (by decide)
    c3 (by decide) (by decide) "SMTP connection refused" rfl (by decide)

/-- C4: a due record whose transport attempt succeeds is committed as
`sent` with `last_error` null (clearing any previous error). -/
theorem C4_success_writes_sent_null (env : Env) (store : List Capsule)
    (now : Int) (h : idsNodup store) (c : Capsule) (hc : c ∈ store)
    (hdue : isDue c now = true) (m : EmailMsg)
    (hsend : send_email env c = Except.ok m) :
    { c with status := Status.sent, error_message := none }
        ∈ send_scheduled_emails env store now
    ∧ { id := c.id
        status := Status.sent
        error_message := (none : Option String) }
        ∈ tickWrites env store now := by
  have hproc : processCapsule env c =
      { c with status := Status.sent, error_message := none } := by
    unfold processCapsule
    rw [hsend]
  constructor
  · rw [send_scheduled_emails_eq_map env store now h]
    exact List.mem_map.mpr ⟨c, hc, (if_pos hdue).trans hproc⟩
  · exact List.mem_map.mpr ⟨c, List.mem_filter.mpr ⟨hc, hdue⟩, by rw [hproc]⟩

/-- A due pending capsule without attachment, for the success path. -/
def c4 : Capsule := { c3 with id := 4 }

/-- C4 witness: a concrete due pending capsule against a working relay. -/
theorem C4_witness :
    ({ c4 with status := Status.sent, error_message := none }
      ∈ send_scheduled_emails env0 [c4] 5)
    ∧ { id := 4
        status := Status.sent
        error_message := (none : Option String) }
        ∈ tickWrites env0 [c4] 5 :=
  C4_success_writes_sent_null env0 [c4] 5 (by decide) c4 (by decide)
    (by decide)
    { from_addr := "user@example.com"
      to_addr := "r@example.com"
      subject := "hello"
      body := "msg"
      attachment := none } rfl

/-- C5: fault isolation per record: with distinct primary keys the whole
tick equals an independent per-record update, so a failure while
processing one record never changes, aborts or reorders the processing
of any other record, and no per-record failure escapes the loop. -/
theorem C5_per_record_isolation (env : Env) (store : List Capsule)
    (now : Int) (h : idsNodup store) :
    send_scheduled_emails env store now = store.map (step env now) :=
  send_scheduled_emails_eq_map env store now h

/-- A relay that accepts one recipient and rejects the other. -/
def env5 : Env :=
  { env0 with smtp := fun m =>
      if m.to_addr = "good@example.com" then Except.ok ()
      else Except.error "550 recipient rejected" }

/-- A due capsule whose delivery the relay of `env5` accepts. -/
def cA : Capsule := { c3 with id := 21, recipient_email := "good@example.com" }

/-- A due capsule whose delivery the relay of `env5` rejects. -/
def cB : Capsule := { c3 with id := 22, recipient_email := "bad@example.com" }

/-- C5 witness: two records due in the same tick, one succeeds and one
fails; both receive their own correct state updates. -/
theorem C5_witness :
    send_scheduled_emails env5 [cA, cB] 5 =
      [{ cA with status := Status.sent, error_message := none },
       { cB with
          status := Status.failed
          error_message := some "550 recipient rejected" }] :=
  (C5_per_record_isolation env5 [cA, cB] 5 (by decide)).trans (by decide)

lemma processCapsule_consistent (env : Env) (c : Capsule) :
    consistent (processCapsule env c) := by
  unfold processCapsule
  cases send_email env c with
  | ok m => simp [consistent]
  | error e => simp [consistent]

lemma mem_foldl_updateById (env : Env) :
    ∀ (ds st : List Capsule) (c : Capsule),
      c ∈ ds.foldl (fun st d => updateById st (processCapsule env d)) st →
      c ∈ st ∨ ∃ d ∈ ds, c = processCapsule env d := by
  intro ds
  induction ds with
  | nil =>
    intro st c hc
    exact Or.inl hc
  | cons d ds ih =>
    intro st c hc
    simp only [List.foldl_cons] at hc
    rcases ih (updateById st (processCapsule env d)) c hc with h | ⟨d', hd', he⟩
    · simp only [updateById, List.mem_map] at h
      rcases h with ⟨y, hy, he⟩
      by_cases hxy : y.id = (processCapsule env d).id
      · rw [if_pos hxy] at he
        exact Or.inr ⟨d, List.mem_cons_self d ds, he.symm⟩
      · rw [if_neg hxy] at he
        exact Or.inl (he ▸ hy)
    · exact Or.inr ⟨d', List.mem_cons_of_mem d hd', he⟩

lemma consistent_after_tick (env : Env) (store : List Capsule) (now : Int)
    (hinv : ∀ c ∈ store, consistent c) :
    ∀ c ∈ send_scheduled_emails env store now, consistent c := by
  intro c hc
  unfold send_scheduled_emails at hc
  rcases mem_foldl_updateById env (find_due store now) store c hc with
    h | ⟨d, _, he⟩
  · exact hinv c h
  · exact he ▸ processCapsule_consistent env d

/-- C6: `last_error` non-null iff `state = failed`, after every
operation: record construction in `create_capsule` gives `pending` with
null error; every scheduler commit gives `sent` with null error or
`failed` with a non-null error; deletion only removes records. -/
theorem C6_last_error_iff_failed :
    (∀ (env : Env) (p : CreateParams) (i : Nat),
        consistent (new_capsule env p i))
    ∧ (∀ (env : Env) (store : List Capsule) (now : Int),
        (∀ c ∈ store, consistent c) →
          ∀ c ∈ send_scheduled_emails env store now, consistent c)
    ∧ (∀ (env : Env) (store : List Capsule) (cid : Nat),
        (∀ c ∈ store, consistent c) →
          ∀ c ∈ (delete_capsule env store cid).store, consistent c) := by
  refine ⟨?_, ?_, ?_⟩
  · intro env p i
    simp [new_capsule, consistent]
  · exact consistent_after_tick
  · intro env store cid hinv c hc
    unfold delete_capsule at hc
    cases hg : get_capsule store cid with
    | none =>
      simp only [hg] at hc
      exact hinv c hc
    | some c0 =>
      simp only [hg] at hc
      exact hinv c (List.mem_of_mem_filter hc)

/-- The validated creation request used in the C6 witness. -/
def params6 : CreateParams :=
  { recipient_email := "r@example.com"
    subject := "hi"
    body := "b"
    send_datetime_utc := 100
    attachment_path := none
    attachment_filename := none }

/-- C6 witness: a freshly created record and a record committed by a
failing tick both satisfy the invariant. -/
theorem C6_witness :
    consistent (new_capsule env0 params6 9)
    ∧ consistent
        { c3 with
          status := Status.failed
          error_message := some "SMTP connection refused" } :=
  ⟨C6_last_error_iff_failed.1 env0 params6 9,
    C6_last_error_iff_failed.2.1 envFail [c3] 5 (by decide) _ (by decide)⟩

/-- A due pending capsule for the repeated-tick counterexample. -/
def c7 : Capsule := { c3 with id := 7 }

/-- C7 (counterexample): after a tick leaves a due record `failed`,
repeating the tick at the same instant on the unchanged table — the due
set holds the same single record id, nothing new — still commits a state
write for that record, so the claim "produces no state writes" fails. -/
theorem C7_counterexample :
    (find_due (send_scheduled_emails envFail [c7] 5) 5).map Capsule.id =
        (find_due [c7] 5).map Capsule.id
    ∧ tickWrites envFail (send_scheduled_emails envFail [c7] 5) 5 =
        [{ id := 7
           status := Status.failed
           error_message := some "SMTP connection refused" }]
    ∧ tickWrites envFail (send_scheduled_emails envFail [c7] 5) 5 ≠ [] := by
  exact ⟨by decide, by decide, by decide⟩

/-- C7 (amended): repeating a tick with no new due records and no Store
changes produces no change to any record's state — the tick is
idempotent — although failed-due records are reprocessed and rewritten
with identical values. -/
theorem C7_tick_idempotent (env : Env) (store : List Capsule) (now : Int)
    (h : idsNodup store) :
    send_scheduled_emails env (send_scheduled_emails env store now) now =
      send_scheduled_emails env store now :=
  send_scheduled_emails_idem env store now h

/-- C7 witness: idempotence at the concrete failing-tick input. -/
theorem C7_witness :
    send_scheduled_emails envFail (send_scheduled_emails envFail [c7] 5) 5 =
      send_scheduled_emails envFail [c7] 5 :=
  C7_tick_idempotent envFail [c7] 5 (by decide)

lemma releaseEvents_release (env : Env) (c : Capsule) :
    ∀ e ∈ releaseEvents env c, isReleaseEvent e = true := by
  unfold releaseEvents
  split
  · intro e he
    cases he
  · split
    · intro e he
      cases he
    · split
      · split
        · intro e he
          rw [List.mem_singleton.mp he]
          rfl
        · intro e he
          rw [List.mem_singleton.mp he]
          rfl
      · intro e he
        cases he

/-- C8 (amended): `delete(id)` on an existing record removes it (it is
gone from `list()` output, `get(id)` finds nothing, other records are
untouched, all regardless of prior state), content release is
best-effort (a failed `os.remove` never blocks the row deletion), and
the order is content-release first, record deletion last. -/
theorem C8_delete_removes_record_release_first (env : Env)
    (store : List Capsule) (cid : Nat) (c : Capsule)
    (h : get_capsule store cid = some c) :
    (delete_capsule env store cid).status_code = 200
    ∧ get_capsule (delete_capsule env store cid).store cid = none
    ∧ (∀ x ∈ (delete_capsule env store cid).store, x ∈ store ∧ x.id ≠ cid)
    ∧ (∀ x ∈ store, x.id ≠ cid → x ∈ (delete_capsule env store cid).store)
    ∧ (delete_capsule env store cid).events.getLast? =
        some (DelEvent.recordDeleted c.id)
    ∧ (∀ e ∈ (delete_capsule env store cid).events,
        e ≠ DelEvent.recordDeleted c.id → isReleaseEvent e = true) := by
  have hd : delete_capsule env store cid =
      { status_code := 200
        events := releaseEvents env c ++ [DelEvent.recordDeleted c.id]
        store := store.filter (fun x => decide (x.id ≠ cid)) } := by
    unfold delete_capsule
    rw [h]
  rw [hd]
  refine ⟨rfl, ?_, ?_, ?_, List.getLast?_concat _, ?_⟩
  · apply List.find?_eq_none.mpr
    intro x hx
    have hne := (List.mem_filter.mp hx).2
    simp only [decide_eq_true_eq] at hne ⊢
    exact hne
  · intro x hx
    exact ⟨List.mem_of_mem_filter hx,
      by simpa using (List.mem_filter.mp hx).2⟩
  · intro x hx hne
    exact List.mem_filter.mpr ⟨hx, by simpa using hne⟩
  · intro e he hne
    rcases List.mem_append.mp he with h1 | h1
    · exact releaseEvents_release env c e h1
    · exact absurd (List.mem_singleton.mp h1) hne

/-- A filesystem carrying the attachment file of `c8`. -/
def env8 : Env :=
  { env0 with fs := fun p =>
      if p = "/app/uploads/a.png" then FsEntry.content [7] else FsEntry.absent }

/-- A capsule whose attachment file exists on the filesystem of `env8`. -/
def c8 : Capsule :=
  { c1 with id := 8, attachment_path := some "/app/uploads/a.png" }

/-- C8 (counterexample): deleting a record with an existing attachment
file releases the content first and deletes the record second, so the
claimed record-first deletion order fails. -/
theorem C8_counterexample :
    (delete_capsule env8 [c8] 8).events =
        [DelEvent.fileRemoved "/app/uploads/a.png", DelEvent.recordDeleted 8]
    ∧ ¬ recordDeletionFirst (delete_capsule env8 [c8] 8).events := by
  exact ⟨by decide, by decide⟩

/-- Like `env8` but `os.remove` raises. -/
def env8f : Env :=
  { env8 with remove_err := fun _ => some "Permission denied" }

/-- C8 witness: even when releasing the attachment content fails, the
record is still deleted and unreachable. -/
theorem C8_witness :
    (delete_capsule env8f [c8] 8).status_code = 200
    ∧ get_capsule (delete_capsule env8f [c8] 8).store 8 = none
    ∧ (delete_capsule env8f [c8] 8).events.getLast? =
        some (DelEvent.recordDeleted 8) := by
  have h := C8_delete_removes_record_release_first env8f [c8] 8 c8 rfl
  exact ⟨h.1, h.2.1, h.2.2.2.2.1⟩

/-- C9: the claim says `created_at` equals each record's creation
instant, so records created at different instants differ. The column
default `datetime.now(timezone.utc)` was evaluated once, when the class
body ran at module import; every record, whenever created, is stamped
with that single instant, so two records created at different instants
carry the same `created_at`, equal to the import time, not to either
creation instant. -/
theorem C9_created_at_is_module_load_time (env : Env) (p q : CreateParams)
    (i j : Nat) :
    (new_capsule env p i).created_at = env.module_load_time
    ∧ (new_capsule env p i).created_at = (new_capsule env q j).created_at
    ∧ ((create_capsule env [] p i).2).created_at = env.module_load_time :=
  ⟨rfl, rfl, rfl⟩

/-- A filesystem carrying a file in a sibling directory whose name shares
the upload folder as a string prefix. -/
def env10 : Env :=
  { env0 with fs := fun p =>
      if p = "/app/uploads_evil/x" then FsEntry.content [9] else FsEntry.absent }

/-- A capsule whose stored attachment path lies outside the upload
folder but begins with its name. -/
def c10 : Capsule :=
  { c1 with
    id := 10
    attachment_path := some "/app/uploads_evil/x"
    attachment_filename := some "x" }

/-- C10 (counterexample): the guard is a bare string-prefix test, so a
stored path in the sibling directory `/app/uploads_evil/` — outside the
upload folder `/app/uploads` — passes the check and the file is served,
where the claim requires a 403 with no bytes served. -/
theorem C10_counterexample :
    download_attachment env10 [c10] 10 =
      DlResult.served "/app/uploads_evil/x" (some "x")
    ∧ ¬ path_inside "/app/uploads" (env10.abspath "/app/uploads_evil/x") := by
  exact ⟨by decide, by decide⟩

/-- C10 (amended): unknown id, missing reference and missing file each
yield a 404 and serve nothing; when the file exists the request is
refused with a 403 exactly when the absolute attachment path does not
have the absolute upload folder path as a string prefix — a prefix
test, which also admits paths outside the folder that merely share its
name as a prefix — and otherwise the file at that path is served. -/
theorem C10_prefix_guard :
    (∀ (env : Env) (store : List Capsule) (cid : Nat),
        get_capsule store cid = none →
          download_attachment env store cid =
            DlResult.notFound "Capsule not found")
    ∧ (∀ (env : Env) (store : List Capsule) (cid : Nat) (c : Capsule),
        get_capsule store cid = some c → c.attachment_path = none →
          download_attachment env store cid =
            DlResult.notFound "Attachment not found for this capsule")
    ∧ (∀ (env : Env) (store : List Capsule) (cid : Nat) (c : Capsule)
          (p : String),
        get_capsule store cid = some c → c.attachment_path = some p →
          p ≠ "" → os_path_exists env p = false →
          download_attachment env store cid =
            DlResult.notFound "Attachment file not found")
    ∧ (∀ (env : Env) (store : List Capsule) (cid : Nat) (c : Capsule)
          (p : String),
        get_capsule store cid = some c → c.attachment_path = some p →
          p ≠ "" → os_path_exists env p = true →
          download_attachment env store cid =
            (if py_startswith (env.abspath p) (env.abspath env.upload_folder)
              then DlResult.served (env.abspath p) c.attachment_filename
              else DlResult.forbidden "Cannot access this file")) := by
  refine ⟨?_, ?_, ?_, ?_⟩
  · intro env store cid hget
    simp [download_attachment, hget]
  · intro env store cid c hget hpath
    simp [download_attachment, hget, hpath]
  · intro env store cid c p hget hpath hne hex
    simp [download_attachment, hget, hpath, hne, hex]
  · intro env store cid c p hget hpath hne hex
    cases hb : py_startswith (env.abspath p) (env.abspath env.upload_folder)
      with
    | false => simp [download_attachment, hget, hpath, hne, hex, hb]
    | true => simp [download_attachment, hget, hpath, hne, hex, hb]

/-- A capsule whose stored attachment path points inside the upload
folder at a file absent from the filesystem of `env0`. -/
def c10b : Capsule :=
  { c1 with id := 12, attachment_path := some "/app/uploads/gone.png" }

/-- C10 witness: a stored reference to a missing file yields a 404. -/
theorem C10_witness :
    download_attachment env0 [c10b] 12 =
      DlResult.notFound "Attachment file not found" :=
  C10_prefix_guard.2.2.1 env0 [c10b] 12 c10b "/app/uploads/gone.png" rfl rfl
    (by decide) rfl

end TimeCapsule
